import Mathlib

/-
Shallow embedding of the BDD test-harness sources
src/features/step_definitions/create-simple-topic.ts and src/unnamed/part_000
(Hedera SDK step definitions). Network interactions are modelled as
explicit oracle functions; module-level mutable state (balance cache,
pending-message queue, created-resource tracking, matcher promise state)
is threaded explicitly. Time is in milliseconds as a natural number.
-/

namespace Hedera

/-- A credential from the static configuration (src/config Account):
account identifier and private key material. -/
structure Account where
  id : String
  privateKey : String
deriving DecidableEq, Repr

/-! ## Balance cache (create-simple-topic.ts lines 79-97) -/

/-- One entry of the module-level balanceCache map: numeric hbar balance
plus the capture timestamp in milliseconds. -/
structure CacheEntry where
  balance : Int
  timestamp : Nat
deriving DecidableEq, Repr

/-- The balanceCache: a JS Map from account id to entry, embedded as an
association list. -/
abbrev BalanceCache := List (String × CacheEntry)

/-- CACHE_TTL of create-simple-topic.ts line 80: 5 seconds. -/
def CACHE_TTL : Nat := 5000

/-- Map.get on the association list. -/
def cacheGet (cache : BalanceCache) (key : String) : Option CacheEntry :=
  (cache.find? (fun p => p.1 == key)).map Prod.snd

/-- Map.set on the association list: replace the binding when the key is
present, append it otherwise. -/
def cacheSet (cache : BalanceCache) (key : String) (e : CacheEntry) : BalanceCache :=
  match cache with
  | [] => [(key, e)]
  | (k, v) :: rest =>
      if k == key then (key, e) :: rest else (k, v) :: cacheSet rest key e

/-- Result of one getHbarBalance call: the returned balance, the cache
after the call, and how many live AccountBalanceQuery executions the call
performed. -/
structure HbarLookup where
  balance : Int
  cache : BalanceCache
  liveQueries : Nat
deriving DecidableEq, Repr

/-- Shallow embedding of getHbarBalance (create-simple-topic.ts lines
82-97). The oracle live maps an account id to its current network hbar
balance; now is Date.now at the call. A fresh cached entry (age strictly
below CACHE_TTL) is returned without a live query; otherwise a live query
runs and the result is stored keyed by the account id. -/
def getHbarBalance (live : String → Int) (now : Nat) (cache : BalanceCache)
    (account : Account) : HbarLookup :=
  match cacheGet cache account.id with
  | some cached =>
      if now - cached.timestamp < CACHE_TTL then
        { balance := cached.balance, cache := cache, liveQueries := 0 }
      else
        let b := live account.id
        { balance := b
          cache := cacheSet cache account.id { balance := b, timestamp := now }
          liveQueries := 1 }
  | none =>
      let b := live account.id
      { balance := b
        cache := cacheSet cache account.id { balance := b, timestamp := now }
        liveQueries := 1 }

/-! ## Token-aware balance query (src/unnamed/part_000 lines 44-58) -/

/-- The result of an AccountBalanceQuery as consumed by part_000: the hbar
amount plus an optional token-id-to-amount map (result.tokens may be null
in the SDK). -/
structure NetworkBalance where
  hbars : Int
  tokens : Option (List (String × Int))
deriving DecidableEq, Repr

/-- TokenBalanceMap.get on the token map. -/
def tokensGet (m : List (String × Int)) (key : String) : Option Int :=
  (m.find? (fun p => p.1 == key)).map Prod.snd

/-- The Balance record of part_000: hbar and token amounts. -/
structure Balance where
  hbar : Int
  tokens : Int
deriving DecidableEq, Repr

/-- Shallow embedding of getAccountBalance (src/unnamed/part_000 lines
44-58): it always executes a live AccountBalanceQuery and never touches
the balance cache (part_000 holds no reference to it), which the embedding
records by threading the cache through unchanged and counting one live
query per invocation. The token amount is read from the result map only
when a token id is supplied and the map is non-null, defaulting to 0. -/
def getAccountBalance (net : String → NetworkBalance) (account : Account)
    (token : Option String) (cache : BalanceCache) :
    Balance × BalanceCache × Nat :=
  let result := net account.id
  let tokenAmount : Int :=
    match token, result.tokens with
    | some t, some m => (tokensGet m t).getD 0
    | _, _ => 0
  ({ hbar := result.hbars, tokens := tokenAmount }, cache, 1)

/-! ## Message publisher (create-simple-topic.ts lines 124-160) -/

/-- A queued entry of MessagePublisher.pendingMessages: message text, topic
id and optional submit key. -/
structure PendingMessage where
  message : String
  topicId : String
  submitKey : Option String
deriving DecidableEq, Repr

/-- A TopicMessageSubmitTransaction as assembled by flushMessages for one
entry: topic, message, frozen flag and accumulated signatures. -/
structure SubmitTx where
  topicId : String
  message : String
  frozen : Bool
  signatures : List String
deriving DecidableEq, Repr

/-- Build the per-entry transaction of flushMessages (lines 146-153):
setTopicId, setMessage, freezeWith(client), then sign with the submit key
when one is present. -/
def buildSubmitTx (m : PendingMessage) : SubmitTx :=
  let tx : SubmitTx :=
    { topicId := m.topicId, message := m.message, frozen := true, signatures := [] }
  match m.submitKey with
  | some k => { tx with signatures := [k] }
  | none => tx

/-- Outcome of executing one submit transaction and fetching its receipt:
a receipt status string, or a propagated error. -/
abbrev SubmitResult := Except String String

/-- Shallow embedding of MessagePublisher.flushMessages (lines 140-159):
snapshot the queue, reset it to the empty list, then submit every snapshot
entry independently through the network oracle exec. Returns the queue
after the flush together with the per-entry results in snapshot order. -/
def flushMessages (exec : SubmitTx → SubmitResult)
    (pending : List PendingMessage) :
    List PendingMessage × List SubmitResult :=
  let messages := pending
  ([], messages.map (fun m => exec (buildSubmitTx m)))

/-- Shallow embedding of MessagePublisher.publish (lines 131-138): push the
entry, then flush when the queue length has reached 5. Returns the queue
after the call and the results of the triggered flush (empty when no flush
ran). -/
def publish (exec : SubmitTx → SubmitResult) (pending : List PendingMessage)
    (m : PendingMessage) : List PendingMessage × List SubmitResult :=
  let queued := pending ++ [m]
  if 5 ≤ queued.length then flushMessages exec queued
  else (queued, [])

/-- Fold publish over a list of messages starting from a given queue,
concatenating all flush results in order. -/
def publishMany (exec : SubmitTx → SubmitResult) (pending : List PendingMessage)
    (ms : List PendingMessage) : List PendingMessage × List SubmitResult :=
  match ms with
  | [] => (pending, [])
  | m :: rest =>
      let step1 := publish exec pending m
      let step2 := publishMany exec step1.1 rest
      (step2.1, step1.2 ++ step2.2)

/-- flushMessages interleaved with concurrent publish calls: the source
resets pendingMessages before awaiting the submissions, so entries
published while the flush is in flight are enqueued onto the fresh queue
and are not part of the in-flight batch. Returns the queue after the flush
and all arrivals, the batch results, and the results of any flushes the
arrivals themselves triggered. -/
def flushMessagesDuring (exec : SubmitTx → SubmitResult)
    (pending arrivals : List PendingMessage) :
    List PendingMessage × List SubmitResult × List SubmitResult :=
  let snapshot := pending
  let batch := snapshot.map (fun m => exec (buildSubmitTx m))
  let after := publishMany exec [] arrivals
  (after.1, batch, after.2)

/-! ## Topic subscription matcher (create-simple-topic.ts lines 184-215) -/

/-- Settlement state of the promise returned by subscribeToTopic. -/
inductive WaitOutcome where
  | pending
  | resolved
  | rejected (msg : String)
deriving DecidableEq, Repr

/-- State of one subscribeToTopic wait: the promise outcome, whether the
timeout timer is still armed, whether the streaming subscription is still
live, and the console log of decoded inbound payloads. -/
structure MatcherState where
  outcome : WaitOutcome
  timerActive : Bool
  subscribed : Bool
  log : List String
deriving DecidableEq, Repr

/-- State right after subscribeToTopic arms the timer (line 190) and opens
the subscription (line 194). -/
def initMatcher : MatcherState :=
  { outcome := .pending, timerActive := true, subscribed := true, log := [] }

/-- A promise settles once: resolving is a no-op unless pending. -/
def settleResolve (s : MatcherState) : MatcherState :=
  match s.outcome with
  | .pending => { s with outcome := .resolved }
  | _ => s

/-- A promise settles once: rejecting is a no-op unless pending. -/
def settleReject (msg : String) (s : MatcherState) : MatcherState :=
  match s.outcome with
  | .pending => { s with outcome := .rejected msg }
  | _ => s

/-- The timeout rejection text of line 191. -/
def timeoutMessage (expected : String) : String :=
  "Timeout waiting for message: " ++ expected

/-- The onMessage callback (lines 203-212): it fires only while the
subscription is live; the decoded payload is logged; on a match the timer
is cleared, the subscription is unsubscribed and the wait resolves; a
non-matching payload leaves the wait untouched. -/
def onMessage (expected contents : String) (s : MatcherState) : MatcherState :=
  if s.subscribed then
    let s1 := { s with log := s.log ++ [contents] }
    if contents = expected then
      settleResolve { s1 with timerActive := false, subscribed := false }
    else s1
  else s

/-- The onError callback (lines 199-202): it clears the timer and rejects
the wait with the error; the subscription handle is not unsubscribed on
this path. -/
def onError (err : String) (s : MatcherState) : MatcherState :=
  if s.subscribed then settleReject err { s with timerActive := false } else s

/-- The setTimeout callback (lines 190-192): if the timer is still armed
when the deadline hits, it fires once and rejects with the timeout error;
the subscription is not unsubscribed on this path either. -/
def onTimeout (expected : String) (s : MatcherState) : MatcherState :=
  if s.timerActive then
    settleReject (timeoutMessage expected) { s with timerActive := false }
  else s

/-- An inbound subscription callback: a consensus message with decoded
contents, or a transport/consensus error. -/
inductive TopicEvent where
  | msg (contents : String)
  | err (e : String)
deriving DecidableEq, Repr

/-- Dispatch one subscription callback to the matcher. -/
def deliver (expected : String) (ev : TopicEvent) (s : MatcherState) : MatcherState :=
  match ev with
  | .msg c => onMessage expected c s
  | .err e => onError e s

/-- The default timeout argument of subscribeToTopic (line 187). -/
def defaultSubscribeTimeout : Nat := 10000

/-- One step of a subscribeToTopic run against a timed callback: the timer
fires first when the callback is scheduled at or after the deadline. -/
def matcherStep (expected : String) (timeout : Nat) (s : MatcherState)
    (te : Nat × TopicEvent) : MatcherState :=
  deliver expected te.2 (if timeout ≤ te.1 then onTimeout expected s else s)

/-- Run subscribeToTopic against a timed trace of subscription callbacks;
after the whole trace the timer fires if it is still armed (the wait
outlives every delivered event). -/
def runMatcher (expected : String) (timeout : Nat)
    (events : List (Nat × TopicEvent)) : MatcherState :=
  onTimeout expected (events.foldl (matcherStep expected timeout) initMatcher)

/-- An event interferes with a pure timeout run when it is an error
callback, or a message matching the expected string delivered strictly
before the deadline. -/
def eventInterferes (expected : String) (timeout : Nat)
    (te : Nat × TopicEvent) : Bool :=
  match te.2 with
  | .err _ => true
  | .msg c => decide (te.1 < timeout) && (c == expected)

/-- Invariant of a subscribeToTopic run in which no error arrives and no
matching message arrives before the deadline: either the wait is still
pending with the timer armed and the subscription live, or the timer has
fired and the wait is rejected with the timeout error. -/
def timeoutInv (expected : String) (s : MatcherState) : Prop :=
  (s.outcome = .pending ∧ s.timerActive = true ∧ s.subscribed = true) ∨
  (s.outcome = .rejected (timeoutMessage expected) ∧ s.timerActive = false)

/-! ## Mint failure step (src/unnamed/part_000 lines 140-153 and 276-289) -/

/-- Errors surfaced by mintTokens: the SDK ReceiptStatusError carrying its
numeric status code, or any other error. -/
inductive MintError where
  | receiptStatus (code : Nat)
  | other (msg : String)
deriving DecidableEq, Repr

/-- How a step fails: an error rethrown to the runner, or a failed
node assert. -/
inductive StepFailure where
  | rethrown (e : MintError)
  | assertionFailure
deriving DecidableEq, Repr

/-- Shallow embedding of the Then step named An attempt to mint tokens
fails (src/unnamed/part_000 lines 276-289): run mintTokens on
tokenSupply + 100; when it throws a ReceiptStatusError record its status
code, on any other error rethrow; finally assert the recorded code equals
236. The oracle mint stands for mintTokens at a given amount. -/
def mintFailsStep (mint : Nat → Except MintError String) (tokenSupply : Nat) :
    Except StepFailure Unit :=
  match mint (tokenSupply + 100) with
  | .ok _ => .error .assertionFailure
  | .error (.receiptStatus c) =>
      if c = 236 then .ok () else .error .assertionFailure
  | .error (.other m) => .error (.rethrown (.other m))

/-! ## Account pool resolver (part_000 lines 192-208, create-simple-topic.ts
lines 223-245) -/

/-- The in-order scan shared by both resolver steps: walk the configured
pool and pick the first account whose queried hbar balance strictly
exceeds the required minimum. part_000 loops and queries one account at a
time; create-simple-topic.ts queries every balance and then takes the
first eligible entry with find; both select the same account. -/
def findEligibleAccount (bal : Account → Int) (minimumBalance : Int) :
    List Account → Option Account
  | [] => none
  | a :: rest =>
      if minimumBalance < bal a then some a
      else findEligibleAccount bal minimumBalance rest

/-- The resolver step itself: on success the found account is bound as the
client operator (client.setOperator plus the firstAccount assignment); when
no account qualifies the node assert fails and the operator binding is left
untouched. Returns the operator after the call and the step result. -/
def resolveOperatorStep (bal : Account → Int) (minimumBalance : Int)
    (pool : List Account) (operator : Option Account) :
    Option Account × Except StepFailure Unit :=
  match findEligibleAccount bal minimumBalance pool with
  | some a => (some a, .ok ())
  | none => (operator, .error .assertionFailure)

/-! ## Resource tracking (create-simple-topic.ts lines 60-121, 288-306;
part_000 lines 60-79) -/

/-- The per-scenario created-resource tracking of create-simple-topic.ts:
context.createdResources with its topics and accounts sequences. -/
structure CreatedResources where
  topics : List String
  accounts : List String
deriving DecidableEq, Repr

/-- Shallow embedding of createAccountWithHbar (create-simple-topic.ts
lines 60-76): the network oracle supplies the new account id, which is
pushed onto context.createdResources.accounts; freshKey stands for the
generated ED25519 private key material. -/
def createAccountWithHbar (newAccountId freshKey : String)
    (res : CreatedResources) : Account × CreatedResources :=
  ({ id := newAccountId, privateKey := freshKey },
   { res with accounts := res.accounts ++ [newAccountId] })

/-- Shallow embedding of createTopic (create-simple-topic.ts lines
100-121): the receipt topic id is pushed onto
context.createdResources.topics. -/
def createTopic (newTopicId : String) (res : CreatedResources) :
    String × CreatedResources :=
  (newTopicId, { res with topics := res.topics ++ [newTopicId] })

/-- Shallow embedding of the threshold-key topic creation step
(create-simple-topic.ts lines 288-306), which also pushes the receipt
topic id onto context.createdResources.topics. -/
def createTopicWithThresholdKey (newTopicId : String) (res : CreatedResources) :
    String × CreatedResources :=
  (newTopicId, { res with topics := res.topics ++ [newTopicId] })

/-- Shallow embedding of accountWithHBar (src/unnamed/part_000 lines
60-79): it creates an account through the network oracle and returns it;
part_000 has no created-resource tracking at all, so the resource state is
left untouched. -/
def accountWithHBar (newAccountId freshKey : String)
    (res : CreatedResources) : Account × CreatedResources :=
  ({ id := newAccountId, privateKey := freshKey }, res)

/-- A configured account used to instantiate universally quantified
statements on concrete inputs. -/
def poorAccount : Account := { id := "0.0.1001", privateKey := "key-one" }

/-- A second configured account with a larger balance. -/
def richAccount : Account := { id := "0.0.1002", privateKey := "key-two" }

/-- A concrete balance oracle: the rich account holds 500 hbar, every
other account holds 3. -/
def sampleBalance (a : Account) : Int :=
  if a.id == "0.0.1002" then 500 else 3

/-! ## Theorems -/

/-- Publishing strictly fewer than five messages in total never triggers
the automatic flush: the entries simply accumulate in order. -/
theorem publishMany_no_flush (exec : SubmitTx → SubmitResult)
    (pending ms : List PendingMessage) (h : pending.length + ms.length < 5) :
    publishMany exec pending ms = (pending ++ ms, []) := by
  induction ms generalizing pending with
  | nil => simp [publishMany]
  | cons m rest ih =>
      have hm : pending.length + (rest.length + 1) < 5 := by simpa using h
      have hlt : ¬ 5 ≤ (pending ++ [m]).length := by
        simp only [List.length_append, List.length_cons, List.length_nil]
        omega
      have hrec : (pending ++ [m]).length + rest.length < 5 := by
        simp only [List.length_append, List.length_cons, List.length_nil]
        omega
      simp only [publishMany, publish]
      rw [if_neg hlt]
      simp [ih (pending ++ [m]) hrec]

/-- C5: enqueuing the fifth message triggers an automatic flush that
submits all five entries and leaves the queue empty; enqueuing only four
leaves all four queued with no flush; an explicit flushMessages on the
four-element queue submits all four and leaves the queue empty. -/
theorem publisher_batch_of_five (exec : SubmitTx → SubmitResult)
    (m1 m2 m3 m4 m5 : PendingMessage) :
    publishMany exec [] [m1, m2, m3, m4, m5] =
      ([], [m1, m2, m3, m4, m5].map (fun m => exec (buildSubmitTx m))) ∧
    publishMany exec [] [m1, m2, m3, m4] = ([m1, m2, m3, m4], []) ∧
    flushMessages exec [m1, m2, m3, m4] =
      ([], [m1, m2, m3, m4].map (fun m => exec (buildSubmitTx m))) := by
  refine ⟨?_, ?_, rfl⟩
  · simp [publishMany, publish, flushMessages]
  · simp [publishMany, publish]

/-- C3: flushMessages processes every snapshot entry and does not
short-circuit: the result list has one entry per snapshot entry, and the
result at position i is exactly the outcome of freezing, signing (when a
key is present) and submitting entry i, independent of the outcomes of all
sibling entries. -/
theorem flushMessages_independent (exec : SubmitTx → SubmitResult)
    (pending : List PendingMessage) :
    (flushMessages exec pending).2.length = pending.length ∧
    (∀ (i : Nat) (m : PendingMessage), pending[i]? = some m →
      (flushMessages exec pending).2[i]? = some (exec (buildSubmitTx m))) ∧
    (flushMessages exec pending).1 = [] := by
  refine ⟨by simp [flushMessages], ?_, rfl⟩
  intro i m hm
  simp [flushMessages, hm]

/-- Closed witness for flushMessages_independent at a concrete queue. -/
theorem flushMessages_independent_w :
    ([{ message := "a", topicId := "0.0.5", submitKey := none },
      { message := "b", topicId := "0.0.5", submitKey := some "k" }] :
        List PendingMessage)[1]? =
      some { message := "b", topicId := "0.0.5", submitKey := some "k" } ∧
    (flushMessages (fun tx => if tx.message == "a" then .error "boom" else .ok "SUCCESS")
      [{ message := "a", topicId := "0.0.5", submitKey := none },
       { message := "b", topicId := "0.0.5", submitKey := some "k" }]).2[1]? =
      some (.ok "SUCCESS") := by
  constructor
  · rfl
  · exact (flushMessages_independent
      (fun tx => if tx.message == "a" then .error "boom" else .ok "SUCCESS")
      [{ message := "a", topicId := "0.0.5", submitKey := none },
       { message := "b", topicId := "0.0.5", submitKey := some "k" }]).2.1 1
      { message := "b", topicId := "0.0.5", submitKey := some "k" } rfl

/-- C4: a flush snapshots the queue and resets it before processing, so
the in-flight batch is exactly the snapshot (one submission per snapshot
entry, in order), and messages published while the flush is in flight are
not part of the batch: with fewer than five arrivals they all remain
queued for a later flush. -/
theorem flush_snapshot_excludes_arrivals (exec : SubmitTx → SubmitResult)
    (pending arrivals : List PendingMessage) (h : arrivals.length < 5) :
    (flushMessagesDuring exec pending arrivals).2.1 =
      pending.map (fun m => exec (buildSubmitTx m)) ∧
    (flushMessagesDuring exec pending arrivals).1 = arrivals := by
  refine ⟨rfl, ?_⟩
  have := publishMany_no_flush exec [] arrivals (by simpa using h)
  simp [flushMessagesDuring, this]

/-- Closed witness for flush_snapshot_excludes_arrivals: one message
arrives while a two-entry batch is in flight; the batch holds exactly the
two snapshot entries and the arrival stays queued. -/
theorem flush_snapshot_excludes_arrivals_w :
    (([{ message := "late", topicId := "0.0.5", submitKey := none }] :
        List PendingMessage).length < 5) ∧
    (flushMessagesDuring (fun _ => .ok "SUCCESS")
      [{ message := "a", topicId := "0.0.5", submitKey := none },
       { message := "b", topicId := "0.0.5", submitKey := none }]
      [{ message := "late", topicId := "0.0.5", submitKey := none }]).1 =
      [{ message := "late", topicId := "0.0.5", submitKey := none }] := by
  refine ⟨by decide, ?_⟩
  exact (flush_snapshot_excludes_arrivals (fun _ => .ok "SUCCESS")
    [{ message := "a", topicId := "0.0.5", submitKey := none },
     { message := "b", topicId := "0.0.5", submitKey := none }]
    [{ message := "late", topicId := "0.0.5", submitKey := none }]
    (by decide)).2

/-- C8 counterexample: the account creation path accountWithHBar of
part_000 does not append the created account id to any created-resource
set; the id of the account created here is absent from the resource state
after the call, refuting the claim that every creation path records its
identifier at creation time. -/
theorem accountWithHBar_untracked_cex :
    (accountWithHBar "0.0.7777" "fresh-key"
      { topics := [], accounts := [] }).1.id = "0.0.7777" ∧
    (accountWithHBar "0.0.7777" "fresh-key"
      { topics := [], accounts := [] }).2.accounts = [] ∧
    ¬ "0.0.7777" ∈ (accountWithHBar "0.0.7777" "fresh-key"
      { topics := [], accounts := [] }).2.accounts := by
  refine ⟨rfl, rfl, by decide⟩

/-- C8 (amended): every creation path of create-simple-topic.ts appends
the created identifier to the per-scenario resource set at creation time
(createAccountWithHbar appends the account id, createTopic and the
threshold-key topic step append the topic id), but accounts created
through accountWithHBar of part_000 are not tracked: part_000 has no
resource set and the creation leaves the tracking state unchanged. -/
theorem creation_paths_tracking (newAccountId freshKey newTopicId : String)
    (res : CreatedResources) :
    (createAccountWithHbar newAccountId freshKey res).2.accounts =
      res.accounts ++ [newAccountId] ∧
    (createAccountWithHbar newAccountId freshKey res).2.topics = res.topics ∧
    (createTopic newTopicId res).2.topics = res.topics ++ [newTopicId] ∧
    (createTopicWithThresholdKey newTopicId res).2.topics =
      res.topics ++ [newTopicId] ∧
    (accountWithHBar newAccountId freshKey res).2 = res :=
  ⟨rfl, rfl, rfl, rfl, rfl⟩

/-- C6: the mint-fails step distinguishes status-coded rejections from
generic errors: when mintTokens rejects with a ReceiptStatusError the step
asserts its status code equals exactly 236 (succeeding only then);
any non-ReceiptStatusError error is rethrown unchanged; and a mint that
unexpectedly succeeds makes the 236 assertion fail. -/
theorem mint_fails_step_spec (mint : Nat → Except MintError String)
    (tokenSupply c : Nat) (m s : String) :
    (mint (tokenSupply + 100) = .error (.receiptStatus c) →
      mintFailsStep mint tokenSupply =
        if c = 236 then .ok () else .error .assertionFailure) ∧
    (mint (tokenSupply + 100) = .error (.other m) →
      mintFailsStep mint tokenSupply = .error (.rethrown (.other m))) ∧
    (mint (tokenSupply + 100) = .ok s →
      mintFailsStep mint tokenSupply = .error .assertionFailure) := by
  refine ⟨?_, ?_, ?_⟩ <;> intro h <;> simp [mintFailsStep, h]

/-- Closed witness for mint_fails_step_spec: a supply-exceeded rejection
with code 236 makes the step succeed, and a generic error is rethrown. -/
theorem mint_fails_step_spec_w :
    mintFailsStep (fun _ => .error (.receiptStatus 236)) 1000 = .ok () ∧
    mintFailsStep (fun _ => .error (.other "network down")) 1000 =
      .error (.rethrown (.other "network down")) := by
  constructor
  · have h := (mint_fails_step_spec (fun _ => .error (.receiptStatus 236))
      1000 236 "x" "x").1 rfl
    simpa using h
  · exact (mint_fails_step_spec (fun _ => .error (.other "network down"))
      1000 236 "network down" "x").2.1 rfl

/-- C9: a getHbarBalance call finding a cached entry younger than the
5000 ms TTL returns that stored value with no live query, whatever the
live balance now is; a call finding the entry expired performs a live
query, stores the fresh result keyed by the account id with the current
timestamp, and returns it. -/
theorem balance_cache_ttl (live : String → Int) (a : Account)
    (cache : BalanceCache) (b : Int) (ts now : Nat)
    (hhit : cacheGet cache a.id = some { balance := b, timestamp := ts }) :
    (now - ts < CACHE_TTL →
      getHbarBalance live now cache a =
        { balance := b, cache := cache, liveQueries := 0 }) ∧
    (CACHE_TTL ≤ now - ts →
      getHbarBalance live now cache a =
        { balance := live a.id
          cache := cacheSet cache a.id { balance := live a.id, timestamp := now }
          liveQueries := 1 }) := by
  constructor
  · intro hfresh
    simp [getHbarBalance, hhit, hfresh]
  · intro hstale
    have hcond : ¬ now - ts < CACHE_TTL := by omega
    simp [getHbarBalance, hhit, hcond]

/-- Closed witness for balance_cache_ttl: with an entry of value 42
captured at t=1000, a lookup at t=2000 returns 42 without a query even
though the live balance is 99, and a lookup at t=9000 re-queries and
stores 99. -/
theorem balance_cache_ttl_w :
    cacheGet [("0.0.1001", { balance := 42, timestamp := 1000 })]
      poorAccount.id = some { balance := 42, timestamp := 1000 } ∧
    getHbarBalance (fun _ => 99) 2000
      [("0.0.1001", { balance := 42, timestamp := 1000 })] poorAccount =
      { balance := 42
        cache := [("0.0.1001", { balance := 42, timestamp := 1000 })]
        liveQueries := 0 } ∧
    getHbarBalance (fun _ => 99) 9000
      [("0.0.1001", { balance := 42, timestamp := 1000 })] poorAccount =
      { balance := 99
        cache := [("0.0.1001", { balance := 99, timestamp := 9000 })]
        liveQueries := 1 } := by
  refine ⟨rfl, ?_, ?_⟩
  · exact (balance_cache_ttl (fun _ => 99) poorAccount
      [("0.0.1001", { balance := 42, timestamp := 1000 })] 42 1000 2000
      rfl).1 (by decide)
  · exact (balance_cache_ttl (fun _ => 99) poorAccount
      [("0.0.1001", { balance := 42, timestamp := 1000 })] 42 1000 9000
      rfl).2 (by decide)

/-- C10: getAccountBalance of part_000 performs exactly one live network
query on every invocation and leaves the balance cache untouched (it never
reads nor writes it), returning the live hbar amount, while the hbar-only
getHbarBalance lookup serves a fresh cached entry with zero live queries;
so token-denominated balances are never served from the cache. -/
theorem token_balance_always_live (net : String → NetworkBalance)
    (a : Account) (token : Option String) (cache : BalanceCache)
    (b : Int) (ts now : Nat)
    (hhit : cacheGet cache a.id = some { balance := b, timestamp := ts })
    (hfresh : now - ts < CACHE_TTL) :
    (getAccountBalance net a token cache).2.1 = cache ∧
    (getAccountBalance net a token cache).2.2 = 1 ∧
    (getAccountBalance net a token cache).1.hbar = (net a.id).hbars ∧
    (getHbarBalance (fun i => (net i).hbars) now cache a).liveQueries = 0 := by
  refine ⟨rfl, rfl, rfl, ?_⟩
  simp [getHbarBalance, hhit, hfresh]

/-- Closed witness for token_balance_always_live: even with a fresh cache
entry for the account, the token-aware query hits the network and ignores
the cache, while the hbar-only lookup is served from the cache. -/
theorem token_balance_always_live_w :
    (getAccountBalance
      (fun _ => { hbars := 7, tokens := some [("0.0.9999", 250)] })
      poorAccount (some "0.0.9999")
      [("0.0.1001", { balance := 42, timestamp := 1000 })]).2.1 =
      [("0.0.1001", { balance := 42, timestamp := 1000 })] ∧
    (getAccountBalance
      (fun _ => { hbars := 7, tokens := some [("0.0.9999", 250)] })
      poorAccount (some "0.0.9999")
      [("0.0.1001", { balance := 42, timestamp := 1000 })]).2.2 = 1 := by
  have h := token_balance_always_live
    (fun _ => { hbars := 7, tokens := some [("0.0.9999", 250)] })
    poorAccount (some "0.0.9999")
    [("0.0.1001", { balance := 42, timestamp := 1000 })] 42 1000 2000
    rfl (by decide)
  exact ⟨h.1, h.2.1⟩

/-- C1 counterexample: a subscription error delivered right after
subscribing rejects the wait, yet the streaming subscription stays live:
the onError handler of subscribeToTopic clears the timer and rejects but
never calls unsubscribe, refuting the claim that no live subscription
remains after every match-or-error terminal transition. -/
theorem error_path_keeps_subscription_cex :
    (onError "CONNECTION_DROPPED" initMatcher).outcome =
      .rejected "CONNECTION_DROPPED" ∧
    (onError "CONNECTION_DROPPED" initMatcher).subscribed = true ∧
    ¬ (onError "CONNECTION_DROPPED" initMatcher).subscribed = false := by
  refine ⟨rfl, rfl, by decide⟩

/-- C1 (amended): the subscription is cancelled only on the match
transition: a matching message while pending and subscribed resolves the
wait, cancels the timer and unsubscribes; a subscription error rejects the
wait and cancels the timer but leaves the subscription live, and the
timeout transition likewise leaves the subscription live. -/
theorem unsubscribe_only_on_match (expected err : String) (s : MatcherState)
    (hs : s.subscribed = true) (hp : s.outcome = .pending) :
    ((onMessage expected expected s).subscribed = false ∧
      (onMessage expected expected s).outcome = .resolved ∧
      (onMessage expected expected s).timerActive = false) ∧
    ((onError err s).subscribed = true ∧
      (onError err s).outcome = .rejected err ∧
      (onError err s).timerActive = false) ∧
    (onTimeout expected s).subscribed = true := by
  obtain ⟨o, ta, sub, lg⟩ := s
  obtain rfl : sub = true := hs
  obtain rfl : o = .pending := hp
  cases ta <;>
    simp [onMessage, onError, onTimeout, settleResolve, settleReject]

/-- Closed witness for unsubscribe_only_on_match at the initial matcher
state. -/
theorem unsubscribe_only_on_match_w :
    initMatcher.subscribed = true ∧ initMatcher.outcome = .pending ∧
    (onError "boom" initMatcher).subscribed = true ∧
    (onMessage "hello" "hello" initMatcher).subscribed = false := by
  have h := unsubscribe_only_on_match "hello" "boom" initMatcher rfl rfl
  exact ⟨rfl, rfl, h.2.1.1, h.1.1⟩

/-- When every pool account balance is at most the minimum, the in-order
scan finds no eligible account. -/
theorem findEligibleAccount_none (bal : Account → Int) (m : Int)
    (pool : List Account) (h : ∀ a ∈ pool, bal a ≤ m) :
    findEligibleAccount bal m pool = none := by
  induction pool with
  | nil => rfl
  | cons a rest ih =>
      have hnot : ¬ m < bal a := not_lt.mpr (h a (List.mem_cons_self a rest))
      rw [findEligibleAccount, if_neg hnot]
      exact ih (fun x hx => h x (List.mem_cons_of_mem a hx))

/-- The in-order scan returns the first eligible account: if position i
is eligible and every earlier position is not, the scan returns the
account at position i. -/
theorem findEligibleAccount_first (bal : Account → Int) (m : Int)
    (pool : List Account) (i : Nat) (h : i < pool.length)
    (hi : m < bal (pool.get ⟨i, h⟩))
    (hb : ∀ (j : Nat) (hj : j < i), bal (pool.get ⟨j, Nat.lt_trans hj h⟩) ≤ m) :
    findEligibleAccount bal m pool = some (pool.get ⟨i, h⟩) := by
  induction pool generalizing i with
  | nil => exact absurd h (by simp)
  | cons a rest ih =>
      cases i with
      | zero =>
          have hi0 : m < bal a := hi
          rw [findEligibleAccount, if_pos hi0]
          rfl
      | succ j =>
          have ha : bal a ≤ m := hb 0 (Nat.succ_pos j)
          have hnot : ¬ m < bal a := not_lt.mpr ha
          have hj : j < rest.length := Nat.lt_of_succ_lt_succ h
          rw [findEligibleAccount, if_neg hnot]
          exact ih j hj hi (fun k hk => hb (k + 1) (Nat.succ_lt_succ hk))

/-- C7: the resolver scans the configured pool in order and binds the
first account whose queried balance strictly exceeds the minimum as the
client operator, succeeding; when no account in the pool qualifies the
step fails with an assertion failure and the operator binding is left
exactly as it was before the call. -/
theorem resolver_first_eligible (bal : Account → Int) (minimumBalance : Int)
    (pool : List Account) (operator : Option Account) :
    (∀ (i : Nat) (h : i < pool.length),
      minimumBalance < bal (pool.get ⟨i, h⟩) →
      (∀ (j : Nat) (hj : j < i),
        bal (pool.get ⟨j, Nat.lt_trans hj h⟩) ≤ minimumBalance) →
      resolveOperatorStep bal minimumBalance pool operator =
        (some (pool.get ⟨i, h⟩), .ok ())) ∧
    ((∀ a ∈ pool, bal a ≤ minimumBalance) →
      resolveOperatorStep bal minimumBalance pool operator =
        (operator, .error .assertionFailure)) := by
  constructor
  · intro i h hi hb
    rw [resolveOperatorStep,
      findEligibleAccount_first bal minimumBalance pool i h hi hb]
  · intro hall
    rw [resolveOperatorStep, findEligibleAccount_none bal minimumBalance pool hall]

/-- Closed witness for resolver_first_eligible: with a pool of a poor and
a rich account, asking for more than 10 hbar binds the rich account (the
first eligible one); asking for more than 1000 hbar fails and leaves the
previously bound operator untouched. -/
theorem resolver_first_eligible_w :
    sampleBalance poorAccount = 3 ∧ sampleBalance richAccount = 500 ∧
    resolveOperatorStep sampleBalance 10 [poorAccount, richAccount] none =
      (some richAccount, .ok ()) ∧
    resolveOperatorStep sampleBalance 1000 [poorAccount, richAccount]
      (some poorAccount) = (some poorAccount, .error .assertionFailure) := by
  refine ⟨rfl, rfl, ?_, ?_⟩
  · have h1 : 1 < ([poorAccount, richAccount] : List Account).length := by decide
    have hb : ∀ (j : Nat) (hj : j < 1),
        sampleBalance ([poorAccount, richAccount].get ⟨j, Nat.lt_trans hj h1⟩) ≤ 10 := by
      intro j hj
      have hj0 : j = 0 := Nat.lt_one_iff.mp hj
      subst hj0
      show sampleBalance poorAccount ≤ 10
      decide
    have hi : (10 : Int) < sampleBalance
        ([poorAccount, richAccount].get ⟨1, h1⟩) := by
      show (10 : Int) < sampleBalance richAccount
      decide
    exact (resolver_first_eligible sampleBalance 10 [poorAccount, richAccount]
      none).1 1 h1 hi hb
  · exact (resolver_first_eligible sampleBalance 1000 [poorAccount, richAccount]
      (some poorAccount)).2 (by decide)

/-- One matcher step preserves the timeout-run invariant when the
delivered callback is neither an error nor a matching message before the
deadline. -/
theorem matcherStep_preserves_inv (expected : String) (timeout : Nat)
    (s : MatcherState) (te : Nat × TopicEvent)
    (hinv : timeoutInv expected s)
    (hte : eventInterferes expected timeout te = false) :
    timeoutInv expected (matcherStep expected timeout s te) := by
  obtain ⟨t, ev⟩ := te
  cases ev with
  | err e => simp [eventInterferes] at hte
  | msg c =>
      have hmsg : ¬ (t < timeout ∧ c = expected) := by
        rintro ⟨h1, h2⟩
        simp [eventInterferes, h1, h2] at hte
      obtain ⟨o, ta, sub, lg⟩ := s
      by_cases hT : timeout ≤ t
      · rcases hinv with ⟨hp, hta, hsub⟩ | ⟨ho, hta⟩
        · obtain rfl : o = .pending := hp
          obtain rfl : ta = true := hta
          obtain rfl : sub = true := hsub
          by_cases hc : c = expected <;>
            simp [matcherStep, deliver, onMessage, onTimeout, settleReject,
              settleResolve, timeoutInv, hT, hc]
        · obtain rfl : o = .rejected (timeoutMessage expected) := ho
          obtain rfl : ta = false := hta
          cases sub <;> by_cases hc : c = expected <;>
            simp [matcherStep, deliver, onMessage, onTimeout, settleReject,
              settleResolve, timeoutInv, hT, hc]
      · have ht1 : t < timeout := Nat.lt_of_not_le hT
        have hc : ¬ c = expected := fun h2 => hmsg ⟨ht1, h2⟩
        rcases hinv with ⟨hp, hta, hsub⟩ | ⟨ho, hta⟩
        · obtain rfl : o = .pending := hp
          obtain rfl : ta = true := hta
          obtain rfl : sub = true := hsub
          simp [matcherStep, deliver, onMessage, onTimeout, settleReject,
            settleResolve, timeoutInv, hT, hc]
        · obtain rfl : o = .rejected (timeoutMessage expected) := ho
          obtain rfl : ta = false := hta
          cases sub <;>
            simp [matcherStep, deliver, onMessage, onTimeout, settleReject,
              settleResolve, timeoutInv, hT, hc]

/-- The timeout-run invariant is preserved along any trace of
non-interfering callbacks. -/
theorem matcherFold_inv (expected : String) (timeout : Nat)
    (events : List (Nat × TopicEvent)) (s : MatcherState)
    (hinv : timeoutInv expected s)
    (hev : ∀ te ∈ events, eventInterferes expected timeout te = false) :
    timeoutInv expected (events.foldl (matcherStep expected timeout) s) := by
  induction events generalizing s with
  | nil => exact hinv
  | cons te rest ih =>
      exact ih (matcherStep expected timeout s te)
        (matcherStep_preserves_inv expected timeout s te hinv
          (hev te (List.mem_cons_self te rest)))
        (fun x hx => hev x (List.mem_cons_of_mem te hx))

/-- A run in which no error arrives and no matching message arrives before
the deadline ends with the wait rejected by the timeout error. -/
theorem runMatcher_timeout_outcome (expected : String) (timeout : Nat)
    (events : List (Nat × TopicEvent))
    (hev : ∀ te ∈ events, eventInterferes expected timeout te = false) :
    (runMatcher expected timeout events).outcome =
      .rejected (timeoutMessage expected) := by
  have hinv := matcherFold_inv expected timeout events initMatcher
    (Or.inl ⟨rfl, rfl, rfl⟩) hev
  unfold runMatcher
  rcases hF : events.foldl (matcherStep expected timeout) initMatcher with
    ⟨o, ta, sub, lg⟩
  rw [hF] at hinv
  rcases hinv with ⟨hp, hta, hsub⟩ | ⟨ho, hta⟩
  · obtain rfl : o = .pending := hp
    obtain rfl : ta = true := hta
    simp [onTimeout, settleReject]
  · obtain rfl : o = .rejected (timeoutMessage expected) := ho
    obtain rfl : ta = false := hta
    simp [onTimeout]

/-- C2: while the wait is pending and the subscription live, an inbound
message whose decoded payload equals the expected string resolves the
wait, cancelling the timeout timer and the subscription; any other
payload is logged and otherwise ignored, leaving the wait pending; and
when no error arrives and no matching message arrives before the
deadline, the wait rejects with the timeout error. The default deadline
is 10000 ms. -/
theorem matcher_match_ignore_timeout (expected contents : String)
    (timeout : Nat) (s : MatcherState) (events : List (Nat × TopicEvent))
    (hs : s.subscribed = true) (hp : s.outcome = .pending)
    (hev : ∀ te ∈ events, eventInterferes expected timeout te = false) :
    (contents = expected →
      onMessage expected contents s =
        { outcome := .resolved, timerActive := false, subscribed := false
          log := s.log ++ [contents] }) ∧
    (contents ≠ expected →
      onMessage expected contents s = { s with log := s.log ++ [contents] }) ∧
    (runMatcher expected timeout events).outcome =
      .rejected (timeoutMessage expected) ∧
    defaultSubscribeTimeout = 10000 := by
  obtain ⟨o, ta, sub, lg⟩ := s
  obtain rfl : sub = true := hs
  obtain rfl : o = .pending := hp
  refine ⟨?_, ?_, runMatcher_timeout_outcome expected timeout events hev, rfl⟩
  · intro hc
    subst hc
    simp [onMessage, settleResolve]
  · intro hc
    simp [onMessage, hc]

/-- Closed witness for matcher_match_ignore_timeout: a trace with one
non-matching message before the deadline and the matching message arriving
only at the deadline ends rejected with the timeout error. -/
theorem matcher_match_ignore_timeout_w :
    initMatcher.subscribed = true ∧ initMatcher.outcome = .pending ∧
    (runMatcher "hello" 10000
      [(100, .msg "other"), (10000, .msg "hello")]).outcome =
      .rejected (timeoutMessage "hello") := by
  refine ⟨rfl, rfl, ?_⟩
  exact (matcher_match_ignore_timeout "hello" "world" 10000 initMatcher
    [(100, .msg "other"), (10000, .msg "hello")] rfl rfl (by decide)).2.2.1

end Hedera
